import Mathlib

/-
  Verification development for the Hue bridge client library.

  The Go sources are shallowly embedded:
  * float32/float64 arithmetic of the gamut / color-conversion engine is
    idealised over ℚ (exact field arithmetic); the only transcendental
    operation, math.Pow on the gamma branch, is abstracted as a function
    parameter, and Euclidean distances are compared in squared form (sqrt
    is strictly monotone on nonnegative reals, so the comparisons agree);
  * uint16 dirty masks become ℕ with the Go `&^` operator truncated to
    16 bits; uint8 color channels become ℕ;
  * the HTTP transport is an oracle `net : ℕ → Bool` giving the outcome of
    the i-th request issued by a synchronisation run, and every run returns
    the full trace of issued requests together with their outcomes;
  * JSON decoding of inbound resource payloads (an external, fixed contract
    per the design) is abstracted as an `Option`-valued "already decoded"
    parameter; outbound payloads are modelled as association lists of the
    exact keys and values the Go code places into the marshalled map.
-/

namespace Hue

/-! ## Dirty-mask constants (control.go, `maskXY uint16 = 1 << iota` block) -/

def maskXY : ℕ := 1
def maskOn : ℕ := 2
def maskHue : ℕ := 4
def maskAlert : ℕ := 8
def maskEffect : ℕ := 16
def maskBrightness : ℕ := 32
def maskSaturation : ℕ := 64
def maskTemperature : ℕ := 128
def maskName : ℕ := 256
def maskStartup : ℕ := 512
def maskLed : ℕ := 1024
def maskAll : ℕ := 65535

/-- Go `m &^ b` on uint16 operands: clear in `m` every bit set in `b`. -/
def andNot (m b : ℕ) : ℕ := m &&& (maskAll ^^^ b)

/-! ## Gamut geometry (colors.go), idealised over ℚ -/

abbrev Pt := ℚ × ℚ

/-- Embeds `type gamut struct { Red, Blue, Green point }` — field order as declared. -/
structure Gamut where
  red : Pt
  blue : Pt
  green : Pt
  deriving DecidableEq

/-- Embeds `var defaultGamut = &gamut{Red: {0.692, 0.308}, Blue: {0.17, 0.7}, Green: {0.153, 0.048}}` -/
def defaultGamut : Gamut :=
  { red := (0.692, 0.308), blue := (0.17, 0.7), green := (0.153, 0.048) }

/-- The 2D cross product `a[0]*b[1] - a[1]*b[0]` of the two basis vectors
`a = Green - Red`, `b = Blue - Red`: the common denominator of the two
coefficient ratios in `gamut.reachable`. -/
def Gamut.det (g : Gamut) : ℚ :=
  (g.green.1 - g.red.1) * (g.blue.2 - g.red.2) -
    (g.green.2 - g.red.2) * (g.blue.1 - g.red.1)

/-- Embeds `func (g gamut) reachable(x, y float32) bool`.  Over ℚ the two divisions
are exact; for a degenerate triangle (det = 0) the Go float code divides by
zero and every comparison on the resulting non-finite values is false, so all
theorems below assume `det ≠ 0`. -/
def Gamut.reachable (g : Gamut) (x y : ℚ) : Bool :=
  let a1 := g.green.1 - g.red.1
  let a2 := g.green.2 - g.red.2
  let b1 := g.blue.1 - g.red.1
  let b2 := g.blue.2 - g.red.2
  let c1 := x - g.red.1
  let c2 := y - g.red.2
  let j := (c1 * b2 - c2 * b1) / (a1 * b2 - a2 * b1)
  let k := (a1 * c2 - a2 * c1) / (a1 * b2 - a2 * b1)
  decide (0 ≤ j ∧ 0 ≤ k ∧ j + k ≤ 1)

/-- The unclamped segment parameter `k = (h·j)/(j·j)` of `func closest`. -/
def segParam (a b : Pt) (x y : ℚ) : ℚ :=
  ((x - a.1) * (b.1 - a.1) + (y - a.2) * (b.2 - a.2)) /
    ((b.1 - a.1) * (b.1 - a.1) + (b.2 - a.2) * (b.2 - a.2))

/-- The clamping `if k < 0 { k = 0 } else if k > 1 { k = 1 }` of `func closest`. -/
def clamp01 (k : ℚ) : ℚ := if k < 0 then 0 else if 1 < k then 1 else k

/-- Embeds `func closest(a, b point, x, y float32) (float32, float32)`: the point
`a + clamp(k)·(b - a)` of the segment from `a` to `b` closest to `(x, y)`. -/
def closest (a b : Pt) (x y : ℚ) : Pt :=
  (a.1 + (b.1 - a.1) * clamp01 (segParam a b x y),
   a.2 + (b.2 - a.2) * clamp01 (segParam a b x y))

/-- Squared Euclidean distance `(x-p₁)² + (y-p₂)²`; `gamut.closestPoint`
compares `math.Sqrt` of exactly these quantities. -/
def dsq (x y : ℚ) (p : Pt) : ℚ := (x - p.1) ^ 2 + (y - p.2) ^ 2

/-- Embeds `func (g gamut) closestPoint(x, y float32) (float32, float32)`.  The Go
code compares the square roots of the three squared distances; sqrt is
strictly monotone on nonnegatives, so comparing the squares directly makes
the same choices. -/
def Gamut.closestPoint (g : Gamut) (x y : ℚ) : Pt :=
  let a := closest g.red g.green x y
  let b := closest g.blue g.red x y
  let c := closest g.green g.blue x y
  let ad := dsq x y a
  let bd := dsq x y b
  let cd := dsq x y c
  let l := if bd < ad then bd else ad
  let f := if bd < ad then b else a
  if cd < l then c else f

/-- Point `(x, y)` is strictly inside the triangle on `g`: it decomposes over the
basis `(Green-Red, Blue-Red)` with strictly positive coefficients summing to
strictly less than 1. -/
def strictlyInside (g : Gamut) (x y : ℚ) : Prop :=
  ∃ j k : ℚ, 0 < j ∧ 0 < k ∧ j + k < 1 ∧
    x = g.red.1 + j * (g.green.1 - g.red.1) + k * (g.blue.1 - g.red.1) ∧
    y = g.red.2 + j * (g.green.2 - g.red.2) + k * (g.blue.2 - g.red.2)

/-- Point `(x, y)` is in the closed triangle with vertices `p`, `q`, `r`
(barycentric decomposition based at `p`). -/
def inHull (p q r : Pt) (x y : ℚ) : Prop :=
  ∃ j k : ℚ, 0 ≤ j ∧ 0 ≤ k ∧ j + k ≤ 1 ∧
    x = p.1 + j * (q.1 - p.1) + k * (r.1 - p.1) ∧
    y = p.2 + j * (q.2 - p.2) + k * (r.2 - p.2)

/-- Point `p` lies on the closed segment from `u` to `v`. -/
def onSeg (u v p : Pt) : Prop :=
  ∃ t : ℚ, 0 ≤ t ∧ t ≤ 1 ∧
    p = (u.1 + (v.1 - u.1) * t, u.2 + (v.2 - u.2) * t)

/-- Point `p` lies on one of the three edges `closestPoint` projects onto. -/
def Gamut.onBoundary (g : Gamut) (p : Pt) : Prop :=
  onSeg g.red g.green p ∨ onSeg g.blue g.red p ∨ onSeg g.green g.blue p

/-- Swap of the Blue and Green fields (new blue = old green and vice versa). -/
def sBG (g : Gamut) : Gamut := { red := g.red, blue := g.green, green := g.blue }

/-- Swap of the Red and Blue fields. -/
def sRB (g : Gamut) : Gamut := { red := g.blue, blue := g.red, green := g.green }

/-- All six ways of storing the three vertices of `g` in the `Red`, `Blue`,
`Green` fields. -/
def Gamut.arrangements (g : Gamut) : List Gamut :=
  [ { red := g.red, blue := g.blue, green := g.green },
    { red := g.red, blue := g.green, green := g.blue },
    { red := g.blue, blue := g.red, green := g.green },
    { red := g.blue, blue := g.green, green := g.red },
    { red := g.green, blue := g.red, green := g.blue },
    { red := g.green, blue := g.blue, green := g.red } ]

/-! ## xy → RGB (colors.go, `rgbFromXy`) -/

/-- The per-channel gamma branch of `rgbFromXy`
(`if c <= 0.0031308 { 12.92*c } else { 1.055*Pow(c, 1/2.4) - 0.055 }`);
`pw` abstracts `math.Pow(·, 1/2.4)`, whose finite float results are the
"finite intermediate values" hypothesis of the safety claim. -/
def gammaCorrect (pw : ℚ → ℚ) (v : ℚ) : ℚ :=
  if v ≤ 0.0031308 then 12.92 * v else (1 + 0.055) * pw v - 0.055

/-- The negative-channel clipping `if r < 0 { r = 0 }` of `rgbFromXy`. -/
def clipNeg (v : ℚ) : ℚ := if v < 0 then 0 else v

/-- Lines of `rgbFromXy` after gamma correction: clip each negative channel
to 0, and when any channel exceeds 1 divide all three by the maximum channel
(`m := r; if b > m { m = b }; if g > m { m = g }`). -/
def normalizeChannels (r g b : ℚ) : ℚ × ℚ × ℚ :=
  let r := clipNeg r
  let g := clipNeg g
  let b := clipNeg b
  if 1 < r ∨ 1 < b ∨ 1 < g then
    let m := if r < b then b else r
    let m := if m < g then g else m
    (r / m, g / m, b / m)
  else (r, g, b)

/-- Go `uint8(v * 255)`: float-to-integer conversion truncates toward zero,
which for the nonnegative in-range values produced here is the floor. -/
def byteOf (v : ℚ) : ℕ := (v * 255).floor.toNat

/-- Embeds `func rgbFromXy(c gamut, l, x, y float32) (uint8, uint8, uint8)` with
`math.Pow(·, 1/2.4)` abstracted as `pw`.  Total by construction. -/
def rgbFromXy (pw : ℚ → ℚ) (c : Gamut) (l x y : ℚ) : ℕ × ℕ × ℕ :=
  let s := if c.reachable x y then (x, y) else c.closestPoint x y
  let cx := (l / s.2) * s.1
  let cz := (l / s.2) * (1 - s.1 - s.2)
  let r := cx * 1.656492 - l * 0.354851 - cz * 0.255038
  let g := (-cx) * 0.707196 + l * 1.655397 + cz * 0.036152
  let b := cx * 0.051713 - l * 0.121364 + cz * 1.011530
  let r := gammaCorrect pw r
  let g := gammaCorrect pw g
  let b := gammaCorrect pw b
  let n := normalizeChannels r g b
  (byteOf n.1, byteOf n.2.1, byteOf n.2.2)

/-! ## Hex parsing (colors.go, `xyFromHex`) -/

/-- The byte values `strconv.ParseUint(·, 16, 16)` accepts in a digit
position: ASCII 0-9, A-F, a-f. -/
def isHexDigit (b : ℕ) : Bool :=
  (48 ≤ b && b ≤ 57) || (65 ≤ b && b ≤ 70) || (97 ≤ b && b ≤ 102)

/-- Numeric value of an ASCII hex digit. -/
def hexVal (b : ℕ) : ℕ :=
  if b ≤ 57 then b - 48 else if b ≤ 70 then b - 65 + 10 else b - 97 + 10

/-- Go string slicing `s[i:i+2]`: defined when `i+2 ≤ len(s)`, a runtime
panic (slice bounds out of range) otherwise — the `none` case. -/
def pair2 (s : List ℕ) (i : ℕ) : Option (ℕ × ℕ) :=
  if i + 2 ≤ s.length then some (s.getD i 0, s.getD (i + 1) 0) else none

/-- Outcome of the parsing part of `xyFromHex`: parsed byte triple (handed on
to `xyFromRGB`), an `errval` format error, or a Go runtime panic. -/
inductive ParseRes where
  | ok (r g b : ℕ)
  | fmt (msg : String)
  | panicked
  deriving DecidableEq

/-- Embeds `func xyFromHex(c gamut, s string) (float32, float32, error)`, the parsing
part (the final `xyFromRGB` call is deterministic in the returned byte
triple).  Strings are byte lists, as in Go.  `pair2 = none` marks the slice
panic the Go code hits when a 6-byte string starts with the optional marker. -/
def hexToRGB (s : List ℕ) : ParseRes :=
  if s.length < 6 ∨ 7 < s.length ∨ (s.length = 7 ∧ s.getD 0 0 ≠ 35) then
    ParseRes.fmt "hex value is invalid"
  else
    let i := if s.getD 0 0 = 35 then 1 else 0
    match pair2 s i with
    | none => ParseRes.panicked
    | some rp =>
      if !(isHexDigit rp.1 && isHexDigit rp.2) then ParseRes.fmt "hex red value is invalid"
      else match pair2 s (i + 2) with
      | none => ParseRes.panicked
      | some gp =>
        if !(isHexDigit gp.1 && isHexDigit gp.2) then ParseRes.fmt "hex green value is invalid"
        else match pair2 s (i + 4) with
        | none => ParseRes.panicked
        | some bp =>
          if !(isHexDigit bp.1 && isHexDigit bp.2) then ParseRes.fmt "hex blue value is invalid"
          else ParseRes.ok (16 * hexVal rp.1 + hexVal rp.2)
            (16 * hexVal gp.1 + hexVal gp.2) (16 * hexVal bp.1 + hexVal bp.2)

/-- Byte list of an ASCII Lean string literal (Go strings are byte strings). -/
def strBytes (s : String) : List ℕ := s.data.map Char.toNat

/-- The well-formed inputs of the specification: exactly six hex digits,
optionally preceded by a single leading marker byte 35. -/
def goodHex (s : List ℕ) : Bool :=
  (decide (s.length = 6) && s.all isHexDigit) ||
    (decide (s.length = 7) && decide (s.getD 0 0 = 35) && s.tail.all isHexDigit)

/-! ## Record state and outbound payloads (control_state.go) -/

/-- Embeds `func (a Alert) String() string` with Alert as ℕ (0 none / 1 select /
2 lselect). -/
def alertString (a : ℕ) : String :=
  if a = 1 then "select" else if a = 2 then "lselect" else "none"

/-- Embeds `func (e Effect) String() string` with Effect as Bool. -/
def effectString (e : Bool) : String := if e then "colorloop" else "none"

/-- Embeds `func (s StartupMode) String() string` (0 safety / 1 powerfail / else
custom). -/
def startupString (s : ℕ) : String :=
  if s = 0 then "safety" else if s = 1 then "powerfail" else "custom"

/-- Embeds `type controlState struct` (control_state.go). -/
structure ControlState where
  xy : Pt
  hue : ℕ
  transition : ℕ
  temperature : ℕ
  On : Bool
  alert : ℕ
  effect : Bool
  reachable : Bool
  brightness : ℕ
  saturation : ℕ
  color : Bool
  deriving DecidableEq

/-- Embeds `type controlStartup struct` (mode + optional custom settings). -/
structure ControlStartup where
  mode : ℕ
  settings : Option ControlState
  deriving DecidableEq

/-- JSON values placed into an outbound payload map. -/
inductive Val where
  | vb (b : Bool)
  | vn (n : ℕ)
  | vs (s : String)
  | vp (p : Pt)
  | vstart (st : ControlStartup)
  deriving DecidableEq

/-- Key set of a marshalled payload. -/
def keys (p : List (String × Val)) : List String := p.map Prod.fst

/-- Embeds `func (s controlState) marshal(m uint16) ([]byte, error)`:
`transitiontime` unconditionally, every other key iff its mask bit is set. -/
def ControlState.marshal (s : ControlState) (m : ℕ) : List (String × Val) :=
  [("transitiontime", Val.vn s.transition)] ++
  (if m &&& maskOn ≠ 0 then [("on", Val.vb s.On)] else []) ++
  (if m &&& maskXY ≠ 0 then [("xy", Val.vp s.xy)] else []) ++
  (if m &&& maskHue ≠ 0 then [("hue", Val.vn s.hue)] else []) ++
  (if m &&& maskAlert ≠ 0 then [("alert", Val.vs (alertString s.alert))] else []) ++
  (if m &&& maskEffect ≠ 0 then [("effect", Val.vs (effectString s.effect))] else []) ++
  (if m &&& maskBrightness ≠ 0 then [("bri", Val.vn s.brightness)] else []) ++
  (if m &&& maskSaturation ≠ 0 then [("sat", Val.vn s.saturation)] else []) ++
  (if m &&& maskTemperature ≠ 0 then [("ct", Val.vn s.temperature)] else [])

/-- Embeds `type sensorConfig struct` (sensors.go). -/
structure SensorConfig where
  led : Option Bool
  battery : Option ℕ
  On : Bool
  alert : ℕ
  reachable : Bool
  deriving DecidableEq

/-- Embeds `func (s sensorConfig) marshal(m uint16) ([]byte, error)`: note
`ledindication` requires the mask bit AND a non-nil Led pointer. -/
def SensorConfig.marshal (s : SensorConfig) (m : ℕ) : List (String × Val) :=
  (if m &&& maskOn ≠ 0 then [("on", Val.vb s.On)] else []) ++
  (if m &&& maskAlert ≠ 0 then [("alert", Val.vs (alertString s.alert))] else []) ++
  (if m &&& maskLed ≠ 0 then
    (match s.led with
     | some v => [("ledindication", Val.vb v)]
     | none => [])
   else [])

/-! ## Requests and the Control synchroniser (control.go) -/

inductive Method where
  | get
  | put
  deriving DecidableEq

/-- One HTTP request issued through `Bridge.request`. -/
structure Request where
  method : Method
  path : String
  body : List (String × Val)
  deriving DecidableEq

/-- Embeds `type Control struct` (control.go); the bridge back-pointer is implicit
(the transport oracle is passed to the operations instead). -/
structure Control where
  startup : ControlStartup
  id : String
  model : String
  product : String
  name : String
  uuid : String
  make : String
  state : ControlState
  mask : ℕ
  manual : Bool
  deriving DecidableEq

/-- Embeds `func (c *Control) marshal() ([]byte, error)`: the identity-class payload
(name / startup config), keyed off the current mask. -/
def Control.marshal (c : Control) : List (String × Val) :=
  (if c.mask &&& maskName ≠ 0 then [("name", Val.vs c.name)] else []) ++
  (if c.mask &&& maskStartup ≠ 0 then [("config", Val.vstart c.startup)] else [])

/-- The fields `Control.unmarshal` replaces from a decoded GET response
(`config.startup` only when present). -/
structure ControlFetched where
  name : String
  uuid : String
  make : String
  model : String
  product : String
  state : ControlState
  startup : Option ControlStartup
  deriving DecidableEq

def Control.applyFetched (c : Control) (f : ControlFetched) : Control :=
  { c with name := f.name, uuid := f.uuid, make := f.make, model := f.model,
           product := f.product, state := f.state,
           startup := f.startup.getD c.startup }

/-- Tail of `Control.UpdateContext`: marshal the state-class payload from the
remaining mask, PUT it to the `/state` sub-path, and clear the whole mask on
success (`idx` is the index of this request in the run's trace). -/
def Control.statePut (c : Control) (net : ℕ → Bool) (idx : ℕ)
    (tr : List (Request × Bool)) : Control × List (Request × Bool) × Bool :=
  let req : Request := ⟨Method.put, "/lights/" ++ c.id ++ "/state", c.state.marshal c.mask⟩
  if net idx then ({ c with mask := 0 }, tr ++ [(req, true)], true)
  else (c, tr ++ [(req, false)], false)

/-- Embeds `func (c *Control) UpdateContext(x context.Context) error`.
Boolean result: `true` = nil error.  Faithful detail: when the identity
branch is taken (`c.mask >= maskName`), the startup bit is cleared by the
if-initialiser `c.mask = c.mask &^ maskStartup` as soon as the identity
payload has been marshalled — BEFORE the identity PUT is attempted — while
the name bit is cleared only after that PUT succeeds.  (`json.Marshal` of
the payload maps cannot fail, so the marshal-error return is unreachable.) -/
def Control.updateContext (c : Control) (net : ℕ → Bool)
    (fetch : Option ControlFetched) : Control × List (Request × Bool) × Bool :=
  if c.mask = 0 then
    let req : Request := ⟨Method.get, "/lights/" ++ c.id, []⟩
    if net 0 then
      match fetch with
      | none => (c, [(req, true)], false)
      | some f => (c.applyFetched f, [(req, true)], true)
    else (c, [(req, false)], false)
  else
    if maskName ≤ c.mask then
      let req : Request := ⟨Method.put, "/lights/" ++ c.id, c.marshal⟩
      let c1 : Control := { c with mask := andNot c.mask maskStartup }
      if net 0 then
        let c2 : Control := { c1 with mask := andNot c1.mask maskName }
        if c2.mask = 0 then (c2, [(req, true)], true)
        else c2.statePut net 1 [(req, true)]
      else (c1, [(req, false)], false)
    else c.statePut net 0 []

/-! ## Sensor synchroniser (sensors.go) -/

/-- Embeds `type Sensor struct`; the ad-hoc `Values` map is an association list. -/
structure Sensor where
  id : String
  uuid : String
  name : String
  make : String
  model : String
  product : String
  values : List (String × Val)
  config : SensorConfig
  mask : ℕ
  manual : Bool
  deriving DecidableEq

/-- Fields `Sensor.unmarshal` replaces from a decoded GET response. -/
structure SensorFetched where
  name : String
  make : String
  model : String
  uuid : Option String
  product : Option String
  values : List (String × Val)
  config : SensorConfig
  deriving DecidableEq

def Sensor.applyFetched (s : Sensor) (f : SensorFetched) : Sensor :=
  { s with name := f.name, make := f.make, model := f.model,
           uuid := f.uuid.getD s.uuid, product := f.product.getD s.product,
           values := f.values, config := f.config }

/-- Tail of `Sensor.UpdateContext`: PUT the config-class payload to the
`/config` sub-path and clear the whole mask on success. -/
def Sensor.configPut (s : Sensor) (net : ℕ → Bool) (idx : ℕ)
    (tr : List (Request × Bool)) : Sensor × List (Request × Bool) × Bool :=
  let req : Request := ⟨Method.put, "/sensors/" ++ s.id ++ "/config", s.config.marshal s.mask⟩
  if net idx then ({ s with mask := 0 }, tr ++ [(req, true)], true)
  else (s, tr ++ [(req, false)], false)

/-- Embeds `func (s *Sensor) UpdateContext(x context.Context) error`.  Unlike the
Control version, the identity branch tests `s.mask & maskName != 0` and the
name bit is cleared only after the identity PUT succeeds. -/
def Sensor.updateContext (s : Sensor) (net : ℕ → Bool)
    (fetch : Option SensorFetched) : Sensor × List (Request × Bool) × Bool :=
  if s.mask = 0 then
    let req : Request := ⟨Method.get, "/sensors/" ++ s.id, []⟩
    if net 0 then
      match fetch with
      | none => (s, [(req, true)], false)
      | some f => (s.applyFetched f, [(req, true)], true)
    else (s, [(req, false)], false)
  else
    if s.mask &&& maskName ≠ 0 then
      let req : Request := ⟨Method.put, "/sensors/" ++ s.id, [("name", Val.vs s.name)]⟩
      if net 0 then
        let s1 : Sensor := { s with mask := andNot s.mask maskName }
        if s1.mask = 0 then (s1, [(req, true)], true)
        else s1.configPut net 1 [(req, true)]
      else (s, [(req, false)], false)
    else s.configPut net 0 []

/-! ## Group synchroniser (groups.go) -/

/-- Embeds `type Group struct`, the synchronisation-relevant fields (the resolved
member pointer slices take no part in `UpdateContext`). -/
structure GroupRec where
  id : String
  name : String
  gtype : ℕ
  action : ControlState
  On : Bool
  AllOn : Bool
  mask : ℕ
  manual : Bool
  deriving DecidableEq

/-- Fields `Group.unmarshal` replaces from a decoded GET response. -/
structure GroupFetched where
  name : String
  gtype : ℕ
  action : Option ControlState
  On : Option Bool
  AllOn : Option Bool
  deriving DecidableEq

def GroupRec.applyFetched (g : GroupRec) (f : GroupFetched) : GroupRec :=
  { g with name := f.name, gtype := f.gtype, action := f.action.getD g.action,
           On := f.On.getD g.On, AllOn := f.AllOn.getD g.AllOn }

/-- Tail of `Group.UpdateContext`: PUT `action.marshal(mask)` to the
`/action` sub-path and clear the whole mask on success. -/
def GroupRec.actionPut (g : GroupRec) (net : ℕ → Bool) (idx : ℕ)
    (tr : List (Request × Bool)) : GroupRec × List (Request × Bool) × Bool :=
  let req : Request := ⟨Method.put, "/groups/" ++ g.id ++ "/action", g.action.marshal g.mask⟩
  if net idx then ({ g with mask := 0 }, tr ++ [(req, true)], true)
  else (g, tr ++ [(req, false)], false)

/-- Embeds `func (g *Group) UpdateContext(x context.Context) error`. -/
def GroupRec.updateContext (g : GroupRec) (net : ℕ → Bool)
    (fetch : Option GroupFetched) : GroupRec × List (Request × Bool) × Bool :=
  if g.mask = 0 then
    let req : Request := ⟨Method.get, "/groups/" ++ g.id, []⟩
    if net 0 then
      match fetch with
      | none => (g, [(req, true)], false)
      | some f => (g.applyFetched f, [(req, true)], true)
    else (g, [(req, false)], false)
  else
    if g.mask &&& maskName ≠ 0 then
      let req : Request := ⟨Method.put, "/groups/" ++ g.id, [("name", Val.vs g.name)]⟩
      if net 0 then
        let g1 : GroupRec := { g with mask := andNot g.mask maskName }
        if g1.mask = 0 then (g1, [(req, true)], true)
        else g1.actionPut net 1 [(req, true)]
      else (g, [(req, false)], false)
    else g.actionPut net 0 []

/-! ## Light mutators (lights.go) -/

/-- Embeds `type Light struct { gamut *gamut; Control }`. -/
structure Light where
  gamut : Option Gamut
  control : Control
  deriving DecidableEq

/-- Outcome of a mutator: nil error, `ErrNoColor`, a hex `errval`, the Go
slice panic inside `xyFromHex`, or a synchronisation failure. -/
inductive SetRes where
  | ok
  | noColor
  | badHex (msg : String)
  | panicked
  | failed
  deriving DecidableEq

/-- The tail every mutator shares: `if c.Manual { return nil };
return c.UpdateContext(c.bridge.ctx)`. -/
def Control.finishSet (c : Control) (net : ℕ → Bool)
    (fetch : Option ControlFetched) : Control × List (Request × Bool) × SetRes :=
  if c.manual then (c, [], SetRes.ok)
  else
    let r := c.updateContext net fetch
    (r.1, r.2.1, if r.2.2 then SetRes.ok else SetRes.failed)

/-- Embeds `func (c *Control) SetName(n string) error`. -/
def Control.setName (c : Control) (n : String) (net : ℕ → Bool)
    (fetch : Option ControlFetched) : Control × List (Request × Bool) × SetRes :=
  Control.finishSet { c with name := n, mask := c.mask ||| maskName } net fetch

/-- Embeds `func (c *Control) SetOn(s bool) error`. -/
def Control.setOn (c : Control) (v : Bool) (net : ℕ → Bool)
    (fetch : Option ControlFetched) : Control × List (Request × Bool) × SetRes :=
  Control.finishSet
    { c with state := { c.state with On := v }, mask := c.mask ||| maskOn } net fetch

/-- Lift a Control result back into the Light wrapper. -/
def Light.lift (l : Light) (r : Control × List (Request × Bool) × SetRes) :
    Light × List (Request × Bool) × SetRes :=
  ({ l with control := r.1 }, r.2.1, r.2.2)

/-- Embeds `func (l *Light) SetName` (promoted from the embedded Control). -/
def Light.setName (l : Light) (n : String) (net : ℕ → Bool)
    (fetch : Option ControlFetched) : Light × List (Request × Bool) × SetRes :=
  l.lift (l.control.setName n net fetch)

/-- Embeds `func (l *Light) SetBrightness(b uint8) error` (no color guard). -/
def Light.setBrightness (l : Light) (b : ℕ) (net : ℕ → Bool)
    (fetch : Option ControlFetched) : Light × List (Request × Bool) × SetRes :=
  l.lift (Control.finishSet
    { l.control with state := { l.control.state with brightness := b },
                     mask := l.control.mask ||| maskBrightness } net fetch)

/-- Embeds `func (l *Light) SetEffect(e Effect) error` (no color guard). -/
def Light.setEffect (l : Light) (e : Bool) (net : ℕ → Bool)
    (fetch : Option ControlFetched) : Light × List (Request × Bool) × SetRes :=
  l.lift (Control.finishSet
    { l.control with state := { l.control.state with effect := e },
                     mask := l.control.mask ||| maskEffect } net fetch)

/-- Embeds `func (l *Light) SetHue(h uint16) error`: `ErrNoColor` before any
mutation when the color flag is unset. -/
def Light.setHue (l : Light) (h : ℕ) (net : ℕ → Bool)
    (fetch : Option ControlFetched) : Light × List (Request × Bool) × SetRes :=
  if !l.control.state.color then (l, [], SetRes.noColor)
  else
    l.lift (Control.finishSet
      { l.control with state := { l.control.state with hue := h },
                       mask := l.control.mask ||| maskHue } net fetch)

/-- Embeds `func (l *Light) SetSaturation(s uint8) error`. -/
def Light.setSaturation (l : Light) (v : ℕ) (net : ℕ → Bool)
    (fetch : Option ControlFetched) : Light × List (Request × Bool) × SetRes :=
  if !l.control.state.color then (l, [], SetRes.noColor)
  else
    l.lift (Control.finishSet
      { l.control with state := { l.control.state with saturation := v },
                       mask := l.control.mask ||| maskSaturation } net fetch)

/-- Embeds `func (l *Light) SetTemperature(t uint16) error`. -/
def Light.setTemperature (l : Light) (v : ℕ) (net : ℕ → Bool)
    (fetch : Option ControlFetched) : Light × List (Request × Bool) × SetRes :=
  if !l.control.state.color then (l, [], SetRes.noColor)
  else
    l.lift (Control.finishSet
      { l.control with state := { l.control.state with temperature := v },
                       mask := l.control.mask ||| maskTemperature } net fetch)

/-- Embeds `func (l *Light) SetXY(x float32, y float32) error`. -/
def Light.setXY (l : Light) (x y : ℚ) (net : ℕ → Bool)
    (fetch : Option ControlFetched) : Light × List (Request × Bool) × SetRes :=
  if !l.control.state.color then (l, [], SetRes.noColor)
  else
    l.lift (Control.finishSet
      { l.control with state := { l.control.state with xy := (x, y) },
                       mask := l.control.mask ||| maskXY } net fetch)

/-- Embeds `func (l *Light) SetRGB(r, g, b uint8) error`; `conv` abstracts
`xyFromRGB` (float/Pow arithmetic), and the nil gamut is replaced by the
default before converting, as in the source. -/
def Light.setRGB (l : Light) (conv : Gamut → ℕ → ℕ → ℕ → Pt) (r g b : ℕ)
    (net : ℕ → Bool) (fetch : Option ControlFetched) :
    Light × List (Request × Bool) × SetRes :=
  if !l.control.state.color then (l, [], SetRes.noColor)
  else
    let l1 : Light := { l with gamut := some (l.gamut.getD defaultGamut) }
    let p := conv (l.gamut.getD defaultGamut) r g b
    l1.setXY p.1 p.2 net fetch

/-- Embeds `func (l *Light) SetHex(h string) error`: color guard, default gamut,
then `xyFromHex` = `hexToRGB` followed by the abstracted `xyFromRGB`. -/
def Light.setHex (l : Light) (conv : Gamut → ℕ → ℕ → ℕ → Pt) (s : List ℕ)
    (net : ℕ → Bool) (fetch : Option ControlFetched) :
    Light × List (Request × Bool) × SetRes :=
  if !l.control.state.color then (l, [], SetRes.noColor)
  else
    let l1 : Light := { l with gamut := some (l.gamut.getD defaultGamut) }
    match hexToRGB s with
    | ParseRes.ok r g b =>
      let p := conv (l.gamut.getD defaultGamut) r g b
      l1.setXY p.1 p.2 net fetch
    | ParseRes.fmt m => (l1, [], SetRes.badHex m)
    | ParseRes.panicked => (l1, [], SetRes.panicked)

/-! ## Cache population (bridge.go: getControls / getSensors / getGroups) -/

/-- Outcome of `decoder.unmarshal` on one listing entry: a Light (capability
set includes `maxlumen` or `ct`) or a bare Control. -/
inductive Dec where
  | light (l : Light)
  | ctrl (c : Control)
  deriving DecidableEq

/-- A listing response, with its JSON decoding abstracted: transport error
from `Bridge.request`; empty body (`len(r) == 0`, returns a nil error);
top-level unmarshal failure or empty map (`len(m) == 0`); or the per-entry
decode outcomes in iteration order (`none` = that entry failed to decode). -/
inductive Listing (α : Type) where
  | transportErr
  | emptyResp
  | badJSON
  | entries (l : List (String × Option α))

/-- The four lazily populated ID→record maps (`nil` = never populated). -/
structure BridgeCache where
  lights : Option (List (String × Light))
  controls : Option (List (String × Control))
  sensors : Option (List (String × Sensor))
  groups : Option (List (String × GroupRec))

/-- The population loop of `getControls`: stops at the first entry that fails
to decode, keeping everything inserted so far. -/
def popControls : List (String × Option Dec) → List (String × Light) →
    List (String × Control) → List (String × Light) × List (String × Control) × Bool
  | [], ls, cs => (ls, cs, true)
  | (_, none) :: _, ls, cs => (ls, cs, false)
  | (k, some (Dec.light v)) :: t, ls, cs => popControls t (ls ++ [(k, v)]) cs
  | (k, some (Dec.ctrl v)) :: t, ls, cs => popControls t ls (cs ++ [(k, v)])

/-- Generic population loop for the single-map kinds: stops at the first
entry that fails to decode, keeping everything inserted so far. -/
def popList {α : Type} : List (String × Option α) → List (String × α) →
    List (String × α) × Bool
  | [], acc => (acc, true)
  | (_, none) :: _, acc => (acc, false)
  | (k, some v) :: t, acc => popList t (acc ++ [(k, v)])

/-- Embeds `func (b *Bridge) getControls(x context.Context) error`.  The fresh maps
are assigned BEFORE the decode loop, so a per-entry decode failure leaves
partially populated (possibly empty) non-nil maps behind. -/
def BridgeCache.getControls (b : BridgeCache) (r : Listing Dec) :
    BridgeCache × Bool :=
  match r with
  | Listing.transportErr => (b, false)
  | Listing.emptyResp => (b, true)
  | Listing.badJSON => (b, false)
  | Listing.entries l =>
    if l.isEmpty then (b, false)
    else
      let p := popControls l [] []
      ({ b with lights := some p.1, controls := some p.2.1 }, p.2.2)

/-- Embeds `func (b *Bridge) getSensors(x context.Context) error`. -/
def BridgeCache.getSensors (b : BridgeCache) (r : Listing Sensor) :
    BridgeCache × Bool :=
  match r with
  | Listing.transportErr => (b, false)
  | Listing.emptyResp => (b, true)
  | Listing.badJSON => (b, false)
  | Listing.entries l =>
    if l.isEmpty then (b, false)
    else
      let p := popList l []
      ({ b with sensors := some p.1 }, p.2)

/-- Embeds `func (b *Bridge) getGroups(x context.Context) error`: populate
lights/controls and sensors first when absent, then the groups listing. -/
def BridgeCache.getGroups (b : BridgeCache) (rc : Listing Dec)
    (rs : Listing Sensor) (rg : Listing GroupRec) : BridgeCache × Bool :=
  let s1 := if b.lights = none ∨ b.controls = none then b.getControls rc else (b, true)
  if !s1.2 then (s1.1, false)
  else
    let s2 := if s1.1.sensors = none then s1.1.getSensors rs else (s1.1, true)
    if !s2.2 then (s2.1, false)
    else
      match rg with
      | Listing.transportErr => (s2.1, false)
      | Listing.emptyResp => (s2.1, true)
      | Listing.badJSON => (s2.1, false)
      | Listing.entries l =>
        if l.isEmpty then (s2.1, false)
        else
          let p := popList l []
          ({ s2.1 with groups := some p.1 }, p.2)

/-- The Light entries among a run of successfully decoded listing entries. -/
def decLights (l : List (String × Option Dec)) : List (String × Light) :=
  l.filterMap fun e =>
    match e.2 with
    | some (Dec.light v) => some (e.1, v)
    | _ => none

/-- The Control entries among a run of successfully decoded listing entries. -/
def decCtrls (l : List (String × Option Dec)) : List (String × Control) :=
  l.filterMap fun e =>
    match e.2 with
    | some (Dec.ctrl v) => some (e.1, v)
    | _ => none

/-- The entries of a run of successfully decoded listing entries. -/
def decSome {α : Type} (l : List (String × Option α)) : List (String × α) :=
  l.filterMap fun e => e.2.map fun v => (e.1, v)

end Hue

namespace Hue

/-! ## Theorems -/

/-- Membership in an if-then-else list. -/
theorem mem_ite_list {c : Prop} [Decidable c] (a : String) (l1 l2 : List String) :
    (a ∈ if c then l1 else l2) ↔ (c ∧ a ∈ l1) ∨ (¬c ∧ a ∈ l2) := by
  split_ifs with h <;> simp [h]

/-- C2: the spec's well-formed/malformed hex examples behave as stated, but a
six-byte string with the optional leading marker (for example "#FF800",
malformed: the marker is not a hex digit) drives `xyFromHex` into the Go
slice expression `s[5:7]` with `len(s) = 6` — a runtime panic (slice bounds
out of range), not the `FormatError` the specification promises for every
malformed string. -/
theorem c2_hex_panic_on_short_marked_string :
    hexToRGB (strBytes "#FF800") = ParseRes.panicked ∧
    goodHex (strBytes "#FF800") = false ∧
    hexToRGB (strBytes "#FF8000") = ParseRes.ok 255 128 0 ∧
    hexToRGB (strBytes "FF8000") = ParseRes.ok 255 128 0 ∧
    hexToRGB (strBytes "ff8000") = ParseRes.ok 255 128 0 ∧
    hexToRGB (strBytes "FF80") = ParseRes.fmt "hex value is invalid" ∧
    hexToRGB (strBytes "#FF80000") = ParseRes.fmt "hex value is invalid" ∧
    hexToRGB (strBytes "GG8000") = ParseRes.fmt "hex red value is invalid" := by
  decide

/-- C3 counterexample: with the LED bit set but no stored LED value
(`Led == nil`, a state the claim quantifies over), `sensorConfig.marshal`
omits the `ledindication` key even though its bit is set in the mask, so
"key present iff bit set" fails as stated. -/
theorem c3_led_key_missing_counterexample :
    maskLed &&& maskLed ≠ 0 ∧
    ¬("ledindication" ∈
        keys (SensorConfig.marshal ⟨none, none, false, 0, false⟩ maskLed)) := by
  decide

/-- C3 amended: a settable attribute's key appears in the state-class payload
iff its bit is set in the mask, with two exceptions: `transitiontime` is
always present in the light/group payload, and the sensor `ledindication` key
additionally requires a stored LED value (non-nil pointer). -/
theorem c3_payload_keys_iff_mask_bits (s : ControlState) (c : SensorConfig) (m : ℕ) :
    "transitiontime" ∈ keys (s.marshal m) ∧
    (("on" ∈ keys (s.marshal m)) ↔ m &&& maskOn ≠ 0) ∧
    (("xy" ∈ keys (s.marshal m)) ↔ m &&& maskXY ≠ 0) ∧
    (("hue" ∈ keys (s.marshal m)) ↔ m &&& maskHue ≠ 0) ∧
    (("alert" ∈ keys (s.marshal m)) ↔ m &&& maskAlert ≠ 0) ∧
    (("effect" ∈ keys (s.marshal m)) ↔ m &&& maskEffect ≠ 0) ∧
    (("bri" ∈ keys (s.marshal m)) ↔ m &&& maskBrightness ≠ 0) ∧
    (("sat" ∈ keys (s.marshal m)) ↔ m &&& maskSaturation ≠ 0) ∧
    (("ct" ∈ keys (s.marshal m)) ↔ m &&& maskTemperature ≠ 0) ∧
    (("on" ∈ keys (c.marshal m)) ↔ m &&& maskOn ≠ 0) ∧
    (("alert" ∈ keys (c.marshal m)) ↔ m &&& maskAlert ≠ 0) ∧
    (("ledindication" ∈ keys (c.marshal m)) ↔ (m &&& maskLed ≠ 0 ∧ c.led ≠ none)) := by
  cases hc : c.led <;>
    simp +decide [keys, ControlState.marshal, SensorConfig.marshal,
      mem_ite_list, List.mem_append, hc]

/-- C5: on a Light whose color-capability flag is false, every color setter
(SetHue, SetXY, SetRGB, SetHex, SetSaturation, SetTemperature) fails with
ErrNoColor, issues no network request, and returns the record completely
unchanged (snapshot, gamut and dirty mask untouched). -/
theorem c5_color_setters_no_mutation (l : Light)
    (h : l.control.state.color = false) :
    (∀ v net fetch, l.setHue v net fetch = (l, [], SetRes.noColor)) ∧
    (∀ x y net fetch, l.setXY x y net fetch = (l, [], SetRes.noColor)) ∧
    (∀ conv r g b net fetch, l.setRGB conv r g b net fetch = (l, [], SetRes.noColor)) ∧
    (∀ conv s net fetch, l.setHex conv s net fetch = (l, [], SetRes.noColor)) ∧
    (∀ v net fetch, l.setSaturation v net fetch = (l, [], SetRes.noColor)) ∧
    (∀ v net fetch, l.setTemperature v net fetch = (l, [], SetRes.noColor)) := by
  refine ⟨?_, ?_, ?_, ?_, ?_, ?_⟩ <;> intros <;>
    simp [Light.setHue, Light.setXY, Light.setRGB, Light.setHex,
      Light.setSaturation, Light.setTemperature, h]

/-- C5 witness: a concrete non-color light rejects SetHue without mutation. -/
theorem c5_color_setters_no_mutation_witness :
    (Light.mk none ⟨⟨0, none⟩, "1", "m", "p", "n", "u", "k",
        ⟨(0, 0), 0, 0, 0, false, 0, false, false, 0, 0, false⟩, 0, false⟩
      ).control.state.color = false ∧
    Light.setHue
      (Light.mk none ⟨⟨0, none⟩, "1", "m", "p", "n", "u", "k",
        ⟨(0, 0), 0, 0, 0, false, 0, false, false, 0, 0, false⟩, 0, false⟩)
      5 (fun _ => true) none =
      (Light.mk none ⟨⟨0, none⟩, "1", "m", "p", "n", "u", "k",
        ⟨(0, 0), 0, 0, 0, false, 0, false, false, 0, 0, false⟩, 0, false⟩,
        [], SetRes.noColor) :=
  ⟨rfl, (c5_color_setters_no_mutation _ rfl).1 5 (fun _ => true) none⟩


/-- Bits other than bit 9 survive clearing the startup bit. -/
theorem testBit_andNot_startup (m i : ℕ) (h16 : i < 16) (h9 : i ≠ 9) :
    (andNot m maskStartup).testBit i = m.testBit i := by
  have e : maskAll ^^^ maskStartup = 65023 := by decide
  simp only [andNot, e, Nat.testBit_land]
  have h : Nat.testBit 65023 i = true := by
    interval_cases i
    all_goals first
      | decide
      | exact absurd rfl h9
  rw [h, Bool.and_true]

/-- Bits other than bit 8 survive clearing the name bit. -/
theorem testBit_andNot_name (m i : ℕ) (h16 : i < 16) (h8 : i ≠ 8) :
    (andNot m maskName).testBit i = m.testBit i := by
  have e : maskAll ^^^ maskName = 65279 := by decide
  simp only [andNot, e, Nat.testBit_land]
  have h : Nat.testBit 65279 i = true := by
    interval_cases i
    all_goals first
      | decide
      | exact absurd rfl h8
  rw [h, Bool.and_true]

/-- On a failed Control synchronisation run, the final mask is the original
one, the original minus the startup bit (identity PUT failed), or the
original minus startup and name bits (identity PUT succeeded, state PUT
failed). -/
theorem control_err_mask (c : Control) (net : ℕ → Bool)
    (fetch : Option ControlFetched)
    (herr : (c.updateContext net fetch).2.2 = false) :
    (c.updateContext net fetch).1.mask = c.mask ∨
    (maskName ≤ c.mask ∧ net 0 = false ∧
      (c.updateContext net fetch).1.mask = andNot c.mask maskStartup) ∨
    (maskName ≤ c.mask ∧ net 0 = true ∧
      (c.updateContext net fetch).1.mask =
        andNot (andNot c.mask maskStartup) maskName) := by
  by_cases h0 : c.mask = 0
  · left
    cases hnet : net 0 <;> cases fetch <;>
      simp [Control.updateContext, h0, hnet] at herr ⊢
  · by_cases hN : maskName ≤ c.mask
    · cases hnet : net 0
      · exact Or.inr (Or.inl ⟨hN, rfl, by
          simp [Control.updateContext, h0, hN, hnet]⟩)
      · by_cases hc2 : andNot (andNot c.mask maskStartup) maskName = 0
        · exact absurd herr (by
            simp [Control.updateContext, h0, hN, hnet, hc2])
        · cases hnet1 : net 1
          · exact Or.inr (Or.inr ⟨hN, rfl, by
              simp [Control.updateContext, Control.statePut, h0, hN, hnet,
                hc2, hnet1]⟩)
          · exact absurd herr (by
              simp [Control.updateContext, Control.statePut, h0, hN, hnet,
                hc2, hnet1])
    · cases hnet : net 0
      · left
        simp [Control.updateContext, Control.statePut, h0, hN, hnet]
      · exact absurd herr (by
          simp [Control.updateContext, Control.statePut, h0, hN, hnet])

/-- On a failed Sensor synchronisation run, the final mask is the original
one, or the original minus the name bit (name PUT succeeded, config PUT
failed). -/
theorem sensor_err_mask (s : Sensor) (net : ℕ → Bool)
    (fetch : Option SensorFetched)
    (herr : (s.updateContext net fetch).2.2 = false) :
    (s.updateContext net fetch).1.mask = s.mask ∨
    (s.mask &&& maskName ≠ 0 ∧ net 0 = true ∧
      (s.updateContext net fetch).1.mask = andNot s.mask maskName) := by
  by_cases h0 : s.mask = 0
  · left
    cases hnet : net 0 <;> cases fetch <;>
      simp [Sensor.updateContext, h0, hnet] at herr ⊢
  · by_cases hN : s.mask &&& maskName ≠ 0
    · cases hnet : net 0
      · left
        simp [Sensor.updateContext, h0, hN, hnet]
      · by_cases hs1 : andNot s.mask maskName = 0
        · exact absurd herr (by
            simp [Sensor.updateContext, h0, hN, hnet, hs1])
        · cases hnet1 : net 1
          · exact Or.inr ⟨hN, rfl, by
              simp [Sensor.updateContext, Sensor.configPut, h0, hN, hnet,
                hs1, hnet1]⟩
          · exact absurd herr (by
              simp [Sensor.updateContext, Sensor.configPut, h0, hN, hnet,
                hs1, hnet1])
    · cases hnet : net 0
      · left
        simp [Sensor.updateContext, Sensor.configPut, h0, hN, hnet]
      · exact absurd herr (by
          simp [Sensor.updateContext, Sensor.configPut, h0, hN, hnet])

/-- On a failed Group synchronisation run, the final mask is the original
one, or the original minus the name bit (name PUT succeeded, action PUT
failed). -/
theorem group_err_mask (g : GroupRec) (net : ℕ → Bool)
    (fetch : Option GroupFetched)
    (herr : (g.updateContext net fetch).2.2 = false) :
    (g.updateContext net fetch).1.mask = g.mask ∨
    (g.mask &&& maskName ≠ 0 ∧ net 0 = true ∧
      (g.updateContext net fetch).1.mask = andNot g.mask maskName) := by
  by_cases h0 : g.mask = 0
  · left
    cases hnet : net 0 <;> cases fetch <;>
      simp [GroupRec.updateContext, h0, hnet] at herr ⊢
  · by_cases hN : g.mask &&& maskName ≠ 0
    · cases hnet : net 0
      · left
        simp [GroupRec.updateContext, h0, hN, hnet]
      · by_cases hs1 : andNot g.mask maskName = 0
        · exact absurd herr (by
            simp [GroupRec.updateContext, h0, hN, hnet, hs1])
        · cases hnet1 : net 1
          · exact Or.inr ⟨hN, rfl, by
              simp [GroupRec.updateContext, GroupRec.actionPut, h0, hN, hnet,
                hs1, hnet1]⟩
          · exact absurd herr (by
              simp [GroupRec.updateContext, GroupRec.actionPut, h0, hN, hnet,
                hs1, hnet1])
    · cases hnet : net 0
      · left
        simp [GroupRec.updateContext, GroupRec.actionPut, h0, hN, hnet]
      · exact absurd herr (by
          simp [GroupRec.updateContext, GroupRec.actionPut, h0, hN, hnet])

/-- C1 counterexample: a Control whose only dirty bit is the startup bit
(bit 9), synchronised against a transport that fails every request: the
single identity PUT fails and the error is returned, yet the startup bit —
whose attribute was never successfully pushed — is no longer set: the mask
was changed by the failed step. -/
theorem c1_startup_bit_cleared_without_push :
    (Control.mk ⟨0, none⟩ "1" "m" "p" "n" "u" "k"
        ⟨(0, 0), 0, 0, 0, false, 0, false, false, 0, 0, false⟩
        maskStartup true).mask.testBit 9 = true ∧
    ((Control.mk ⟨0, none⟩ "1" "m" "p" "n" "u" "k"
        ⟨(0, 0), 0, 0, 0, false, 0, false, false, 0, 0, false⟩
        maskStartup true).updateContext (fun _ => false) none).2.2 = false ∧
    ((Control.mk ⟨0, none⟩ "1" "m" "p" "n" "u" "k"
        ⟨(0, 0), 0, 0, 0, false, 0, false, false, 0, 0, false⟩
        maskStartup true).updateContext (fun _ => false) none).2.1.map
        Prod.snd = [false] ∧
    ((Control.mk ⟨0, none⟩ "1" "m" "p" "n" "u" "k"
        ⟨(0, 0), 0, 0, 0, false, 0, false, false, 0, 0, false⟩
        maskStartup true).updateContext (fun _ => false) none).1.mask.testBit 9
      = false := by
  decide

/-- C1 amended: across Control, Sensor and Group synchronisation runs, a
dirty bit is cleared only after the PUT carrying its attribute succeeds, with
one exception: the Control startup bit (bit 9) is cleared as soon as the
identity payload is marshalled, before the identity PUT is attempted, so an
identity-PUT failure returns with that bit (and only that bit) already
cleared.  Every other set bit whose attribute was not successfully pushed —
for bit 8 (name): unless the identity PUT succeeded — is still set when the
error is returned. -/
theorem c1_mask_bits_preserved_on_failure :
    (∀ (c : Control) (net : ℕ → Bool) (fetch : Option ControlFetched),
      (c.updateContext net fetch).2.2 = false →
      ∀ i : ℕ, i < 16 → i ≠ 9 →
        (i = 8 → ¬(maskName ≤ c.mask ∧ net 0 = true)) →
        c.mask.testBit i = true →
        (c.updateContext net fetch).1.mask.testBit i = true) ∧
    (∀ (c : Control) (net : ℕ → Bool) (fetch : Option ControlFetched),
      ¬maskName ≤ c.mask →
      (c.updateContext net fetch).2.2 = false →
      ∀ i : ℕ, i < 16 → c.mask.testBit i = true →
        (c.updateContext net fetch).1.mask.testBit i = true) ∧
    (∀ (c : Control) (net : ℕ → Bool) (fetch : Option ControlFetched),
      maskName ≤ c.mask → net 0 = false →
      (c.updateContext net fetch).1.mask = andNot c.mask maskStartup ∧
      (c.updateContext net fetch).2.2 = false) ∧
    (∀ (s : Sensor) (net : ℕ → Bool) (fetch : Option SensorFetched),
      (s.updateContext net fetch).2.2 = false →
      ∀ i : ℕ, i < 16 →
        (i = 8 → ¬(s.mask &&& maskName ≠ 0 ∧ net 0 = true)) →
        s.mask.testBit i = true →
        (s.updateContext net fetch).1.mask.testBit i = true) ∧
    (∀ (g : GroupRec) (net : ℕ → Bool) (fetch : Option GroupFetched),
      (g.updateContext net fetch).2.2 = false →
      ∀ i : ℕ, i < 16 →
        (i = 8 → ¬(g.mask &&& maskName ≠ 0 ∧ net 0 = true)) →
        g.mask.testBit i = true →
        (g.updateContext net fetch).1.mask.testBit i = true) := by
  refine ⟨?_, ?_, ?_, ?_, ?_⟩
  · intro c net fetch herr i h16 h9 h8 hbit
    rcases control_err_mask c net fetch herr with hq | ⟨hN, hnet, hq⟩ | ⟨hN, hnet, hq⟩
    · rw [hq]; exact hbit
    · rw [hq, testBit_andNot_startup _ _ h16 h9]; exact hbit
    · have h8n : i ≠ 8 := fun he => (h8 he) ⟨hN, hnet⟩
      rw [hq, testBit_andNot_name _ _ h16 h8n,
        testBit_andNot_startup _ _ h16 h9]
      exact hbit
  · intro c net fetch hlt herr i h16 hbit
    rcases control_err_mask c net fetch herr with hq | ⟨hN, _, _⟩ | ⟨hN, _, _⟩
    · rw [hq]; exact hbit
    · exact absurd hN hlt
    · exact absurd hN hlt
  · intro c net fetch hN hnet
    have h0 : ¬c.mask = 0 := by
      have : (256 : ℕ) ≤ c.mask := hN
      omega
    constructor <;> simp [Control.updateContext, h0, hN, hnet]
  · intro s net fetch herr i h16 h8 hbit
    rcases sensor_err_mask s net fetch herr with hq | ⟨hN, hnet, hq⟩
    · rw [hq]; exact hbit
    · have h8n : i ≠ 8 := fun he => (h8 he) ⟨hN, hnet⟩
      rw [hq, testBit_andNot_name _ _ h16 h8n]; exact hbit
  · intro g net fetch herr i h16 h8 hbit
    rcases group_err_mask g net fetch herr with hq | ⟨hN, hnet, hq⟩
    · rw [hq]; exact hbit
    · have h8n : i ≠ 8 := fun he => (h8 he) ⟨hN, hnet⟩
      rw [hq, testBit_andNot_name _ _ h16 h8n]; exact hbit

/-- C1 amended witness: a Control whose only dirty bit is the power bit
(bit 1) keeps it set across a failed synchronisation. -/
theorem c1_mask_bits_preserved_on_failure_witness :
    ((Control.mk ⟨0, none⟩ "1" "m" "p" "n" "u" "k"
        ⟨(0, 0), 0, 0, 0, false, 0, false, false, 0, 0, false⟩
        maskOn true).updateContext (fun _ => false) none).2.2 = false ∧
    (Control.mk ⟨0, none⟩ "1" "m" "p" "n" "u" "k"
        ⟨(0, 0), 0, 0, 0, false, 0, false, false, 0, 0, false⟩
        maskOn true).mask.testBit 1 = true ∧
    ((Control.mk ⟨0, none⟩ "1" "m" "p" "n" "u" "k"
        ⟨(0, 0), 0, 0, 0, false, 0, false, false, 0, 0, false⟩
        maskOn true).updateContext (fun _ => false) none).1.mask.testBit 1
      = true :=
  ⟨by decide, by decide,
    c1_mask_bits_preserved_on_failure.1
      (Control.mk ⟨0, none⟩ "1" "m" "p" "n" "u" "k"
        ⟨(0, 0), 0, 0, 0, false, 0, false, false, 0, 0, false⟩
        maskOn true)
      (fun _ => false) none (by decide) 1 (by decide) (by decide)
      (by decide) (by decide)⟩


/-- C4: from a clean record in manual mode, setting brightness then
saturation stages both edits with no network traffic, and one
synchronisation run issues exactly one PUT, to the state sub-path, whose
payload carries both the brightness and saturation fields; setting
display-name then brightness instead issues exactly two PUTs — the identity
PUT to the resource root (carrying the name) first and the state PUT (with
the brightness) second. -/
theorem c4_put_sequences (l : Light) (bv sv : ℕ) (n : String)
    (net : ℕ → Bool) (fetch : Option ControlFetched)
    (hman : l.control.manual = true) (hmask : l.control.mask = 0)
    (hcol : l.control.state.color = true) :
    ((l.setBrightness bv net fetch).2.1 = [] ∧
     ((l.setBrightness bv net fetch).1.setSaturation sv net fetch).2.1 = [] ∧
     ∃ body,
       (Control.updateContext
           ((l.setBrightness bv net fetch).1.setSaturation sv net
             fetch).1.control net fetch).2.1 =
         [(⟨Method.put, "/lights/" ++ l.control.id ++ "/state", body⟩, net 0)] ∧
       "bri" ∈ keys body ∧ "sat" ∈ keys body) ∧
    (net 0 = true →
     ∃ b1 b2,
       (Control.updateContext
           ((l.setName n net fetch).1.setBrightness bv net
             fetch).1.control net fetch).2.1 =
         [(⟨Method.put, "/lights/" ++ l.control.id, b1⟩, true),
          (⟨Method.put, "/lights/" ++ l.control.id ++ "/state", b2⟩, net 1)] ∧
       "name" ∈ keys b1 ∧ "bri" ∈ keys b2) := by
  have h96 : (0 : ℕ) ||| maskBrightness ||| maskSaturation = 96 := by decide
  have h288 : (0 : ℕ) ||| maskName ||| maskBrightness = 288 := by decide
  refine ⟨⟨?_, ?_, ?_⟩, ?_⟩
  · simp [Light.setBrightness, Control.finishSet, Light.lift, hman]
  · simp [Light.setBrightness, Light.setSaturation, Control.finishSet,
      Light.lift, hman, hcol]
  · simp only [Light.setBrightness, Light.setSaturation, Control.finishSet,
      Light.lift, hman, hcol, hmask, if_true, Bool.not_true, Bool.false_eq_true,
      if_false, h96]
    cases hnet : net 0 <;>
      simp +decide [Control.updateContext, Control.statePut,
        ControlState.marshal, keys, hman, hcol, hnet]
  · intro hnet0
    simp only [Light.setName, Light.setBrightness, Control.setName,
      Control.finishSet, Light.lift, hman, hcol, hmask, if_true,
      Bool.not_true, Bool.false_eq_true, if_false, h288]
    cases hnet1 : net 1 <;>
      (simp +decide [Control.updateContext, Control.statePut, Control.marshal,
        ControlState.marshal, keys, hman, hnet0, hnet1]
       exact ⟨_, _, ⟨rfl, rfl⟩, ⟨Val.vs n, by simp⟩, ⟨Val.vn bv, by simp⟩⟩)

/-- C4 witness: concrete manual light record satisfying the hypotheses. -/
theorem c4_put_sequences_witness :
    (Light.mk none (Control.mk ⟨0, none⟩ "1" "m" "p" "n" "u" "k"
        ⟨(0, 0), 0, 0, 0, false, 0, false, false, 0, 0, true⟩ 0
        true)).control.manual = true ∧
    (Light.mk none (Control.mk ⟨0, none⟩ "1" "m" "p" "n" "u" "k"
        ⟨(0, 0), 0, 0, 0, false, 0, false, false, 0, 0, true⟩ 0
        true)).control.mask = 0 ∧
    (Light.mk none (Control.mk ⟨0, none⟩ "1" "m" "p" "n" "u" "k"
        ⟨(0, 0), 0, 0, 0, false, 0, false, false, 0, 0, true⟩ 0
        true)).control.state.color = true ∧
    ((Light.mk none (Control.mk ⟨0, none⟩ "1" "m" "p" "n" "u" "k"
        ⟨(0, 0), 0, 0, 0, false, 0, false, false, 0, 0, true⟩ 0
        true)).setBrightness 10 (fun _ => true) none).2.1 = [] :=
  ⟨rfl, rfl, rfl,
    (c4_put_sequences
      (Light.mk none (Control.mk ⟨0, none⟩ "1" "m" "p" "n" "u" "k"
        ⟨(0, 0), 0, 0, 0, false, 0, false, false, 0, 0, true⟩ 0 true))
      10 20 "x" (fun _ => true) none rfl rfl rfl).1.1⟩


/-- C6 counterexample: a lights listing whose single entry fails to decode
returns the error, but the lights and controls cache maps have already been
replaced by freshly allocated (here empty) maps — they are NOT left absent,
and subsequent accessors will treat the kind as populated. -/
theorem c6_partial_maps_retained_on_entry_error :
    (BridgeCache.mk none none none none).getControls
        (Listing.entries [("1", none)]) =
      (BridgeCache.mk (some []) (some []) none none, false) ∧
    some ([] : List (String × Light)) ≠ none := by
  constructor
  · rfl
  · simp

/-- The controls population loop stops at the first undecodable entry,
keeping the accumulated prefix. -/
theorem popControls_append_none (pre : List (String × Option Dec)) (k : String)
    (rest : List (String × Option Dec)) (h : ∀ e ∈ pre, e.2 ≠ none) :
    ∀ ls cs, popControls (pre ++ (k, none) :: rest) ls cs =
      (ls ++ decLights pre, cs ++ decCtrls pre, false) := by
  induction pre with
  | nil => intro ls cs; simp [popControls, decLights, decCtrls]
  | cons e t ih =>
    intro ls cs
    obtain ⟨k0, o⟩ := e
    match o, h ⟨k0, o⟩ (List.mem_cons_self _ _) with
    | some (Dec.light v), _ =>
      simp only [List.cons_append, popControls, List.append_eq]
      rw [ih (fun e he => h e (List.mem_cons_of_mem _ he))]
      simp [decLights, decCtrls]
    | some (Dec.ctrl v), _ =>
      simp only [List.cons_append, popControls, List.append_eq]
      rw [ih (fun e he => h e (List.mem_cons_of_mem _ he))]
      simp [decLights, decCtrls]

/-- The controls population loop succeeds when every entry decodes. -/
theorem popControls_all_some (l : List (String × Option Dec))
    (h : ∀ e ∈ l, e.2 ≠ none) :
    ∀ ls cs, popControls l ls cs = (ls ++ decLights l, cs ++ decCtrls l, true) := by
  induction l with
  | nil => intro ls cs; simp [popControls, decLights, decCtrls]
  | cons e t ih =>
    intro ls cs
    obtain ⟨k0, o⟩ := e
    match o, h ⟨k0, o⟩ (List.mem_cons_self _ _) with
    | some (Dec.light v), _ =>
      simp only [popControls, List.append_eq]
      rw [ih (fun e he => h e (List.mem_cons_of_mem _ he))]
      simp [decLights, decCtrls]
    | some (Dec.ctrl v), _ =>
      simp only [popControls, List.append_eq]
      rw [ih (fun e he => h e (List.mem_cons_of_mem _ he))]
      simp [decLights, decCtrls]

/-- The generic population loop stops at the first undecodable entry,
keeping the accumulated prefix. -/
theorem popList_append_none {α : Type} (pre : List (String × Option α))
    (k : String) (rest : List (String × Option α))
    (h : ∀ e ∈ pre, e.2 ≠ none) :
    ∀ acc, popList (pre ++ (k, none) :: rest) acc = (acc ++ decSome pre, false) := by
  induction pre with
  | nil => intro acc; simp [popList, decSome]
  | cons e t ih =>
    intro acc
    obtain ⟨k0, o⟩ := e
    match o, h ⟨k0, o⟩ (List.mem_cons_self _ _) with
    | some v, _ =>
      simp only [List.cons_append, popList, List.append_eq]
      rw [ih (fun e he => h e (List.mem_cons_of_mem _ he))]
      simp [decSome]

/-- The generic population loop succeeds when every entry decodes. -/
theorem popList_all_some {α : Type} (l : List (String × Option α))
    (h : ∀ e ∈ l, e.2 ≠ none) :
    ∀ acc, popList l acc = (acc ++ decSome l, true) := by
  induction l with
  | nil => intro acc; simp [popList, decSome]
  | cons e t ih =>
    intro acc
    obtain ⟨k0, o⟩ := e
    match o, h ⟨k0, o⟩ (List.mem_cons_self _ _) with
    | some v, _ =>
      simp only [popList, List.append_eq]
      rw [ih (fun e he => h e (List.mem_cons_of_mem _ he))]
      simp [decSome]

/-- C6 amended: a transport error or a malformed/empty top-level listing
leaves the kind's cache maps untouched (absent if never populated) and
returns the error; but when an individual entry fails to decode, the kind's
maps have already been replaced by freshly allocated maps holding exactly the
entries decoded before the failure, and those partially populated maps are
retained while the error is returned.  When every entry decodes, the maps are
wholesale-replaced and the run succeeds. -/
theorem c6_population_failure_map_state (b : BridgeCache) :
    (b.getControls Listing.transportErr = (b, false)) ∧
    (b.getControls Listing.badJSON = (b, false)) ∧
    (b.getSensors Listing.transportErr = (b, false)) ∧
    (b.getSensors Listing.badJSON = (b, false)) ∧
    (∀ (pre rest : List (String × Option Dec)) (k : String),
      (∀ e ∈ pre, e.2 ≠ none) →
      b.getControls (Listing.entries (pre ++ (k, none) :: rest)) =
        ({ b with lights := some (decLights pre),
                  controls := some (decCtrls pre) }, false)) ∧
    (∀ (pre rest : List (String × Option Sensor)) (k : String),
      (∀ e ∈ pre, e.2 ≠ none) →
      b.getSensors (Listing.entries (pre ++ (k, none) :: rest)) =
        ({ b with sensors := some (decSome pre) }, false)) ∧
    (∀ l : List (String × Option Dec), l ≠ [] → (∀ e ∈ l, e.2 ≠ none) →
      b.getControls (Listing.entries l) =
        ({ b with lights := some (decLights l),
                  controls := some (decCtrls l) }, true)) ∧
    (∀ l : List (String × Option Sensor), l ≠ [] → (∀ e ∈ l, e.2 ≠ none) →
      b.getSensors (Listing.entries l) =
        ({ b with sensors := some (decSome l) }, true)) ∧
    (b.lights ≠ none → b.controls ≠ none → b.sensors ≠ none →
      ∀ (rc : Listing Dec) (rs : Listing Sensor)
        (pre rest : List (String × Option GroupRec)) (k : String),
      (∀ e ∈ pre, e.2 ≠ none) →
      b.getGroups rc rs (Listing.entries (pre ++ (k, none) :: rest)) =
        ({ b with groups := some (decSome pre) }, false)) := by
  refine ⟨rfl, rfl, rfl, rfl, ?_, ?_, ?_, ?_, ?_⟩
  · intro pre rest k h
    have hne : (pre ++ (k, (none : Option Dec)) :: rest).isEmpty = false := by
      cases pre <;> rfl
    simp [BridgeCache.getControls, hne, popControls_append_none pre k rest h]
  · intro pre rest k h
    have hne : (pre ++ (k, (none : Option Sensor)) :: rest).isEmpty = false := by
      cases pre <;> rfl
    simp [BridgeCache.getSensors, hne, popList_append_none pre k rest h]
  · intro l hl h
    have hne : l.isEmpty = false := by
      cases l with
      | nil => exact absurd rfl hl
      | cons e t => rfl
    simp [BridgeCache.getControls, hne, popControls_all_some l h]
  · intro l hl h
    have hne : l.isEmpty = false := by
      cases l with
      | nil => exact absurd rfl hl
      | cons e t => rfl
    simp [BridgeCache.getSensors, hne, popList_all_some l h]
  · intro hl hc hs rc rs pre rest k h
    have hne : (pre ++ (k, (none : Option GroupRec)) :: rest).isEmpty = false := by
      cases pre <;> rfl
    simp [BridgeCache.getGroups, hl, hc, hs, hne,
      popList_append_none pre k rest h]

/-- C6 amended witness: concrete failing single-entry listing on an empty
cache. -/
theorem c6_population_failure_map_state_witness :
    (∀ e ∈ ([] : List (String × Option Dec)), e.2 ≠ none) ∧
    (BridgeCache.mk none none none none).getControls
        (Listing.entries ([] ++ ("1", (none : Option Dec)) :: [])) =
      ({ BridgeCache.mk none none none none with
          lights := some (decLights []), controls := some (decCtrls []) },
        false) :=
  ⟨by simp,
    (c6_population_failure_map_state
      (BridgeCache.mk none none none none)).2.2.2.2.1 [] [] "1" (by simp)⟩


/-- Clipping a negative channel yields a nonnegative one. -/
theorem clipNeg_nonneg (v : ℚ) : 0 ≤ clipNeg v := by
  unfold clipNeg
  split_ifs with h
  · exact le_refl 0
  · exact le_of_not_lt h

/-- A channel divided by a dominating maximum stays in the unit interval. -/
theorem div_mem_unit (a m : ℚ) (h0 : 0 ≤ a) (ham : a ≤ m) (h1m : 1 < m) :
    0 ≤ a / m ∧ a / m ≤ 1 := by
  constructor
  · exact div_nonneg h0 (by linarith)
  · rw [div_le_one (by linarith)]
    linarith

/-- After clipping and conditional max-normalisation, every channel lies in
the closed unit interval. -/
theorem normalizeChannels_bounds (r g b : ℚ) :
    (0 ≤ (normalizeChannels r g b).1 ∧ (normalizeChannels r g b).1 ≤ 1) ∧
    (0 ≤ (normalizeChannels r g b).2.1 ∧ (normalizeChannels r g b).2.1 ≤ 1) ∧
    (0 ≤ (normalizeChannels r g b).2.2 ∧ (normalizeChannels r g b).2.2 ≤ 1) := by
  have hr := clipNeg_nonneg r
  have hg := clipNeg_nonneg g
  have hb := clipNeg_nonneg b
  simp only [normalizeChannels]
  by_cases hc : 1 < clipNeg r ∨ 1 < clipNeg b ∨ 1 < clipNeg g
  · rw [if_pos hc]
    set m1 := if clipNeg r < clipNeg b then clipNeg b else clipNeg r with hm1
    set m2 := if m1 < clipNeg g then clipNeg g else m1 with hm2
    have hrm : clipNeg r ≤ m2 := by
      rw [hm2, hm1]
      split_ifs <;> linarith
    have hbm : clipNeg b ≤ m2 := by
      rw [hm2, hm1]
      split_ifs <;> linarith
    have hgm : clipNeg g ≤ m2 := by
      rw [hm2]
      split_ifs <;> linarith
    have h1m : 1 < m2 := by
      rcases hc with h | h | h <;> linarith
    exact ⟨div_mem_unit _ _ hr hrm h1m, div_mem_unit _ _ hg hgm h1m,
      div_mem_unit _ _ hb hbm h1m⟩
  · rw [if_neg hc]
    push_neg at hc
    exact ⟨⟨hr, hc.1⟩, ⟨hg, hc.2.2⟩, ⟨hb, hc.2.1⟩⟩

/-- A unit-interval channel scales to the 8-bit range without overflow. -/
theorem byteOf_le255 (v : ℚ) (_h0 : 0 ≤ v) (h1 : v ≤ 1) : byteOf v ≤ 255 := by
  unfold byteOf
  rw [Int.toNat_le]
  by_contra hlt
  push_neg at hlt
  have h256 : (256 : ℤ) ≤ Rat.floor (v * 255) := by
    have := hlt
    omega
  have hle : ((256 : ℤ) : ℚ) ≤ v * 255 := Rat.le_floor.mp h256
  norm_num at hle
  linarith

/-- C9: for every input — and every finite value the abstracted
`math.Pow(·, 1/2.4)` may return — the channels of `rgbFromXy` after gamma
correction, negative clipping and conditional max-normalisation lie in
[0, 1], so the conversion to the 8-bit range yields each output channel in
0..255 without overflow; the embedded function is total by construction. -/
theorem c9_rgbFromXy_channels_in_range :
    (∀ r g b : ℚ,
      (0 ≤ (normalizeChannels r g b).1 ∧ (normalizeChannels r g b).1 ≤ 1) ∧
      (0 ≤ (normalizeChannels r g b).2.1 ∧ (normalizeChannels r g b).2.1 ≤ 1) ∧
      (0 ≤ (normalizeChannels r g b).2.2 ∧ (normalizeChannels r g b).2.2 ≤ 1)) ∧
    (∀ (pw : ℚ → ℚ) (c : Gamut) (l x y : ℚ),
      (rgbFromXy pw c l x y).1 ≤ 255 ∧ (rgbFromXy pw c l x y).2.1 ≤ 255 ∧
      (rgbFromXy pw c l x y).2.2 ≤ 255) := by
  refine ⟨fun r g b => normalizeChannels_bounds r g b, ?_⟩
  intro pw c l x y
  simp only [rgbFromXy]
  refine ⟨byteOf_le255 _ ?_ ?_, byteOf_le255 _ ?_ ?_, byteOf_le255 _ ?_ ?_⟩
  · exact (normalizeChannels_bounds _ _ _).1.1
  · exact (normalizeChannels_bounds _ _ _).1.2
  · exact (normalizeChannels_bounds _ _ _).2.1.1
  · exact (normalizeChannels_bounds _ _ _).2.1.2
  · exact (normalizeChannels_bounds _ _ _).2.2.1
  · exact (normalizeChannels_bounds _ _ _).2.2.2


/-- Cramer's rule, solving direction: the two cross-product ratios solve the
2×2 linear system. -/
theorem cramer_solve (a1 a2 b1 b2 c1 c2 : ℚ) (hd : a1 * b2 - a2 * b1 ≠ 0) :
    ((c1 * b2 - c2 * b1) / (a1 * b2 - a2 * b1)) * a1 +
      ((a1 * c2 - a2 * c1) / (a1 * b2 - a2 * b1)) * b1 = c1 ∧
    ((c1 * b2 - c2 * b1) / (a1 * b2 - a2 * b1)) * a2 +
      ((a1 * c2 - a2 * c1) / (a1 * b2 - a2 * b1)) * b2 = c2 := by
  constructor <;> (field_simp; ring)

/-- Cramer's rule, uniqueness direction: the cross-product ratios recover the
coefficients of a linear combination. -/
theorem cramer_unique (a1 a2 b1 b2 j k : ℚ) (hd : a1 * b2 - a2 * b1 ≠ 0) :
    ((j * a1 + k * b1) * b2 - (j * a2 + k * b2) * b1) / (a1 * b2 - a2 * b1) = j ∧
    (a1 * (j * a2 + k * b2) - a2 * (j * a1 + k * b1)) / (a1 * b2 - a2 * b1) = k := by
  constructor <;> (field_simp; ring)

/-- On a non-degenerate gamut, `reachable` decides membership in the closed
triangle spanned by the three vertices. -/
theorem reachable_iff_inHull (g : Gamut) (hd : g.det ≠ 0) (x y : ℚ) :
    g.reachable x y = true ↔ inHull g.red g.green g.blue x y := by
  have hd' : (g.green.1 - g.red.1) * (g.blue.2 - g.red.2) -
      (g.green.2 - g.red.2) * (g.blue.1 - g.red.1) ≠ 0 := hd
  simp only [Gamut.reachable, decide_eq_true_eq, inHull]
  constructor
  · rintro ⟨hj, hk, hjk⟩
    refine ⟨_, _, hj, hk, hjk, ?_, ?_⟩
    · have h := (cramer_solve (g.green.1 - g.red.1) (g.green.2 - g.red.2)
        (g.blue.1 - g.red.1) (g.blue.2 - g.red.2)
        (x - g.red.1) (y - g.red.2) hd').1
      linarith
    · have h := (cramer_solve (g.green.1 - g.red.1) (g.green.2 - g.red.2)
        (g.blue.1 - g.red.1) (g.blue.2 - g.red.2)
        (x - g.red.1) (y - g.red.2) hd').2
      linarith
  · rintro ⟨j, k, hj, hk, hjk, hx, hy⟩
    have e1 : x - g.red.1 =
        j * (g.green.1 - g.red.1) + k * (g.blue.1 - g.red.1) := by linarith
    have e2 : y - g.red.2 =
        j * (g.green.2 - g.red.2) + k * (g.blue.2 - g.red.2) := by linarith
    have u := cramer_unique (g.green.1 - g.red.1) (g.green.2 - g.red.2)
      (g.blue.1 - g.red.1) (g.blue.2 - g.red.2) j k hd'
    refine ⟨?_, ?_, ?_⟩
    · rw [e1, e2, u.1]
      exact hj
    · rw [e1, e2, u.2]
      exact hk
    · rw [e1, e2, u.1, u.2]
      exact hjk

/-- C7: on a non-degenerate triangle, the membership test computes the two
coefficients as 2D cross-product ratios of (P−R) against the basis vectors
(G−R) and (B−R) over their common cross product (the determinant), returns
true iff j ≥ 0, k ≥ 0 and j + k ≤ 1, and in particular returns true for
every point strictly inside the triangle. -/
theorem c7_reachable_cross_ratios (g : Gamut) (hd : g.det ≠ 0) (x y : ℚ) :
    (g.reachable x y = true ↔
      0 ≤ ((x - g.red.1) * (g.blue.2 - g.red.2) -
            (y - g.red.2) * (g.blue.1 - g.red.1)) / g.det ∧
      0 ≤ ((g.green.1 - g.red.1) * (y - g.red.2) -
            (g.green.2 - g.red.2) * (x - g.red.1)) / g.det ∧
      ((x - g.red.1) * (g.blue.2 - g.red.2) -
            (y - g.red.2) * (g.blue.1 - g.red.1)) / g.det +
        ((g.green.1 - g.red.1) * (y - g.red.2) -
            (g.green.2 - g.red.2) * (x - g.red.1)) / g.det ≤ 1) ∧
    (strictlyInside g x y → g.reachable x y = true) := by
  constructor
  · simp only [Gamut.reachable, Gamut.det, decide_eq_true_eq]
  · intro hs
    simp only [strictlyInside] at hs
    obtain ⟨j, k, hj, hk, hjk, hx, hy⟩ := hs
    rw [reachable_iff_inHull g hd]
    exact ⟨j, k, le_of_lt hj, le_of_lt hk, le_of_lt hjk, hx, hy⟩

/-- C7 witness: the unit right triangle is non-degenerate and contains its
strict interior point (1/4, 1/4). -/
theorem c7_reachable_cross_ratios_witness :
    (Gamut.mk (0, 0) (0, 1) (1, 0)).det ≠ 0 ∧
    (strictlyInside (Gamut.mk (0, 0) (0, 1) (1, 0)) (1/4) (1/4) →
      (Gamut.mk (0, 0) (0, 1) (1, 0)).reachable (1/4) (1/4) = true) :=
  ⟨by norm_num [Gamut.det],
    (c7_reachable_cross_ratios (Gamut.mk (0, 0) (0, 1) (1, 0))
      (by norm_num [Gamut.det]) (1/4) (1/4)).2⟩


/-- Distinct endpoints give a positive squared edge length. -/
theorem sub_sq_pos_of_ne (a b : Pt) (h : a ≠ b) :
    0 < (b.1 - a.1) * (b.1 - a.1) + (b.2 - a.2) * (b.2 - a.2) := by
  rcases eq_or_ne a.1 b.1 with h1 | h1
  · rcases eq_or_ne a.2 b.2 with h2 | h2
    · exact absurd (Prod.ext h1 h2) h
    · nlinarith [mul_self_nonneg (b.1 - a.1),
        mul_self_pos.mpr (sub_ne_zero.mpr (Ne.symm h2))]
  · nlinarith [mul_self_nonneg (b.2 - a.2),
      mul_self_pos.mpr (sub_ne_zero.mpr (Ne.symm h1))]

/-- The clamped parameter lies in the unit interval. -/
theorem clamp01_mem (k : ℚ) : 0 ≤ clamp01 k ∧ clamp01 k ≤ 1 := by
  unfold clamp01
  split_ifs with h1 h2
  · exact ⟨le_refl 0, zero_le_one⟩
  · exact ⟨zero_le_one, le_refl 1⟩
  · exact ⟨le_of_not_lt h1, le_of_not_lt h2⟩

/-- The projection returned by `closest` lies on its segment. -/
theorem closest_onSeg (a b : Pt) (x y : ℚ) : onSeg a b (closest a b x y) :=
  ⟨clamp01 (segParam a b x y), (clamp01_mem _).1, (clamp01_mem _).2, rfl⟩

/-- Lying on a segment is symmetric in its endpoints. -/
theorem onSeg_symm {a b p : Pt} (h : onSeg a b p) : onSeg b a p := by
  simp only [onSeg] at h ⊢
  obtain ⟨t, ht0, ht1, rfl⟩ := h
  exact ⟨1 - t, by linarith, by linarith, Prod.ext (by simp; ring) (by simp; ring)⟩

/-- The clamped quadratic is minimal over the unit interval: core arithmetic
of the closest-point-on-a-segment property. -/
theorem seg_quad_min (j1 j2 h1 h2 t : ℚ) (hjj : 0 < j1 * j1 + j2 * j2)
    (ht0 : 0 ≤ t) (ht1 : t ≤ 1) :
    (h1 - j1 * clamp01 ((h1 * j1 + h2 * j2) / (j1 * j1 + j2 * j2))) ^ 2 +
      (h2 - j2 * clamp01 ((h1 * j1 + h2 * j2) / (j1 * j1 + j2 * j2))) ^ 2 ≤
    (h1 - j1 * t) ^ 2 + (h2 - j2 * t) ^ 2 := by
  unfold clamp01
  split_ifs with hneg hbig
  · have hjneg : h1 * j1 + h2 * j2 < 0 := by
      by_contra hcon
      push_neg at hcon
      exact absurd (div_nonneg hcon hjj.le) (not_le.mpr hneg)
    nlinarith [mul_nonneg ht0 (neg_nonneg.mpr hjneg.le),
      mul_nonneg (mul_nonneg ht0 ht0) hjj.le]
  · have hjbig : j1 * j1 + j2 * j2 < h1 * j1 + h2 * j2 := (one_lt_div hjj).mp hbig
    nlinarith [mul_nonneg (sub_nonneg.mpr ht1) (sub_nonneg.mpr hjbig.le),
      mul_nonneg (mul_nonneg (sub_nonneg.mpr ht1) (sub_nonneg.mpr ht1)) hjj.le]
  · rw [← mul_le_mul_right hjj]
    have expand :
        ((h1 - j1 * ((h1 * j1 + h2 * j2) / (j1 * j1 + j2 * j2))) ^ 2 +
          (h2 - j2 * ((h1 * j1 + h2 * j2) / (j1 * j1 + j2 * j2))) ^ 2) *
            (j1 * j1 + j2 * j2) =
          (h1 ^ 2 + h2 ^ 2) * (j1 * j1 + j2 * j2) - (h1 * j1 + h2 * j2) ^ 2 := by
      field_simp
      ring
    rw [expand]
    nlinarith [sq_nonneg (t * (j1 * j1 + j2 * j2) - (h1 * j1 + h2 * j2))]

/-- Projection `closest a b` has minimal (squared) distance to (x, y) among all points
of the segment from `a` to `b`. -/
theorem closest_dsq_le (a b : Pt) (x y : ℚ) (hab : a ≠ b) (q : Pt)
    (hq : onSeg a b q) : dsq x y (closest a b x y) ≤ dsq x y q := by
  simp only [onSeg] at hq
  obtain ⟨t, ht0, ht1, rfl⟩ := hq
  have hjj := sub_sq_pos_of_ne a b hab
  have h := seg_quad_min (b.1 - a.1) (b.2 - a.2) (x - a.1) (y - a.2) t hjj ht0 ht1
  have e : ∀ u v w z : ℚ, u - (v + w * z) = (u - v) - w * z := by
    intro u v w z
    ring
  simp only [closest, dsq, segParam]
  simp only [e]
  exact h

/-- The projections onto a segment and its reversal are equidistant from the
query point (the minimiser's distance is unique). -/
theorem dsq_closest_comm (a b : Pt) (x y : ℚ) (hab : a ≠ b) :
    dsq x y (closest a b x y) = dsq x y (closest b a x y) :=
  le_antisymm
    (closest_dsq_le a b x y hab _ (onSeg_symm (closest_onSeg b a x y)))
    (closest_dsq_le b a x y (Ne.symm hab) _ (onSeg_symm (closest_onSeg a b x y)))

/-- Function `closestPoint` returns one of the three edge projections. -/
theorem closestPoint_mem (g : Gamut) (x y : ℚ) :
    g.closestPoint x y = closest g.red g.green x y ∨
    g.closestPoint x y = closest g.blue g.red x y ∨
    g.closestPoint x y = closest g.green g.blue x y := by
  simp only [Gamut.closestPoint]
  split_ifs <;> tauto

/-- The (squared) distance achieved by `closestPoint` is the minimum of the
three edge-projection distances. -/
theorem closestPoint_dsq_min (g : Gamut) (x y : ℚ) :
    dsq x y (g.closestPoint x y) =
      min (min (dsq x y (closest g.red g.green x y))
        (dsq x y (closest g.blue g.red x y)))
        (dsq x y (closest g.green g.blue x y)) := by
  simp only [Gamut.closestPoint]
  split_ifs <;> (rw [min_def, min_def]; split_ifs <;> linarith)

/-- All three vertices are pairwise distinct on a non-degenerate gamut. -/
theorem det_ne_vertex_ne (g : Gamut) (hd : g.det ≠ 0) :
    g.red ≠ g.green ∧ g.blue ≠ g.red ∧ g.green ≠ g.blue := by
  refine ⟨?_, ?_, ?_⟩ <;> intro h <;> apply hd <;> simp only [Gamut.det]
  · rw [h]
    ring
  · rw [← h]
    ring
  · rw [h]
    ring

/-- C8: on a non-degenerate gamut, for any query point (in particular any
point outside the triangle) `closestPoint` returns one of the three edge
projections; each projection is the closest point of its (clamped) segment;
the returned point achieves the minimum of the three distances — both in
squared and in Euclidean (square-root) form — and lies on the triangle
boundary. -/
theorem c8_closestPoint_minimal_edge_projection (g : Gamut) (hd : g.det ≠ 0)
    (x y : ℚ) (_houts : g.reachable x y = false) :
    (g.closestPoint x y = closest g.red g.green x y ∨
     g.closestPoint x y = closest g.blue g.red x y ∨
     g.closestPoint x y = closest g.green g.blue x y) ∧
    onSeg g.red g.green (closest g.red g.green x y) ∧
    onSeg g.blue g.red (closest g.blue g.red x y) ∧
    onSeg g.green g.blue (closest g.green g.blue x y) ∧
    (∀ q, onSeg g.red g.green q →
      dsq x y (closest g.red g.green x y) ≤ dsq x y q) ∧
    (∀ q, onSeg g.blue g.red q →
      dsq x y (closest g.blue g.red x y) ≤ dsq x y q) ∧
    (∀ q, onSeg g.green g.blue q →
      dsq x y (closest g.green g.blue x y) ≤ dsq x y q) ∧
    dsq x y (g.closestPoint x y) ≤ dsq x y (closest g.red g.green x y) ∧
    dsq x y (g.closestPoint x y) ≤ dsq x y (closest g.blue g.red x y) ∧
    dsq x y (g.closestPoint x y) ≤ dsq x y (closest g.green g.blue x y) ∧
    g.onBoundary (g.closestPoint x y) ∧
    (∀ q, (q = closest g.red g.green x y ∨ q = closest g.blue g.red x y ∨
           q = closest g.green g.blue x y) →
      Real.sqrt ((dsq x y (g.closestPoint x y) : ℚ) : ℝ) ≤
        Real.sqrt ((dsq x y q : ℚ) : ℝ)) := by
  obtain ⟨hrg, hbr, hgb⟩ := det_ne_vertex_ne g hd
  have hmin := closestPoint_dsq_min g x y
  have hmem := closestPoint_mem g x y
  have hA : dsq x y (g.closestPoint x y) ≤ dsq x y (closest g.red g.green x y) := by
    rw [hmin]
    exact le_trans (min_le_left _ _) (min_le_left _ _)
  have hB : dsq x y (g.closestPoint x y) ≤ dsq x y (closest g.blue g.red x y) := by
    rw [hmin]
    exact le_trans (min_le_left _ _) (min_le_right _ _)
  have hC : dsq x y (g.closestPoint x y) ≤ dsq x y (closest g.green g.blue x y) := by
    rw [hmin]
    exact min_le_right _ _
  refine ⟨hmem, closest_onSeg _ _ _ _, closest_onSeg _ _ _ _,
    closest_onSeg _ _ _ _,
    fun q hq => closest_dsq_le _ _ x y hrg q hq,
    fun q hq => closest_dsq_le _ _ x y hbr q hq,
    fun q hq => closest_dsq_le _ _ x y hgb q hq,
    hA, hB, hC, ?_, ?_⟩
  · rcases hmem with h | h | h
    · exact Or.inl (h ▸ closest_onSeg _ _ _ _)
    · exact Or.inr (Or.inl (h ▸ closest_onSeg _ _ _ _))
    · exact Or.inr (Or.inr (h ▸ closest_onSeg _ _ _ _))
  · rintro q (rfl | rfl | rfl) <;>
      exact Real.sqrt_le_sqrt (by exact_mod_cast (by assumption : dsq x y (Gamut.closestPoint g x y) ≤ _))


/-- C8 witness: the unit right triangle and the outside point (2, 2). -/
theorem c8_closestPoint_minimal_edge_projection_witness :
    (Gamut.mk (0, 0) (0, 1) (1, 0)).det ≠ 0 ∧
    (Gamut.mk (0, 0) (0, 1) (1, 0)).reachable 2 2 = false ∧
    (Gamut.mk (0, 0) (0, 1) (1, 0)).onBoundary
      ((Gamut.mk (0, 0) (0, 1) (1, 0)).closestPoint 2 2) :=
  ⟨by norm_num [Gamut.det],
    by simp only [Gamut.reachable, decide_eq_false_iff_not]; norm_num,
    (c8_closestPoint_minimal_edge_projection (Gamut.mk (0, 0) (0, 1) (1, 0))
      (by norm_num [Gamut.det]) 2 2
      (by simp only [Gamut.reachable, decide_eq_false_iff_not];
          norm_num)).2.2.2.2.2.2.2.2.2.2.1⟩


/-- Two booleans agreeing on truth agree. -/
theorem bool_eq_of_true_iff {a b : Bool} (h : (a = true) ↔ (b = true)) :
    a = b := by
  cases a <;> cases b <;> simp_all

/-- Hull membership is invariant under swapping the second and third
vertices. -/
theorem inHull_swap_qr (p q r : Pt) (x y : ℚ) :
    inHull p q r x y ↔ inHull p r q x y := by
  constructor <;>
    · rintro ⟨j, k, hj, hk, hjk, hx, hy⟩
      exact ⟨k, j, hk, hj, by linarith, by linarith, by linarith⟩

/-- Hull membership is invariant under swapping the first and second
vertices. -/
theorem inHull_swap_pq (p q r : Pt) (x y : ℚ) :
    inHull p q r x y ↔ inHull q p r x y := by
  constructor <;>
    · rintro ⟨j, k, hj, hk, hjk, hx, hy⟩
      refine ⟨1 - j - k, k, by linarith, hk, by linarith, ?_, ?_⟩
      · linear_combination hx
      · linear_combination hy

/-- The five non-identity permutations of a three-way minimum. -/
theorem min3_comm_all (a b c : ℚ) :
    min (min a b) c = min (min b a) c ∧
    min (min a b) c = min (min c b) a ∧
    min (min a b) c = min (min a c) b ∧
    min (min a b) c = min (min b c) a ∧
    min (min a b) c = min (min c a) b := by
  refine ⟨?_, ?_, ?_, ?_, ?_⟩ <;>
    · rw [min_def, min_def, min_def, min_def]
      split_ifs <;> linarith


/-- C10: the membership test and the nearest-point distance depend only on
the set of the three vertices, not on which vertex sits in the Red, Blue or
Green field: for every arrangement of the vertices into the fields of a
non-degenerate gamut and every point, `reachable` is identical and
`closestPoint` achieves the same minimal (squared, hence Euclidean) distance.
In particular the decoder's assignment of the wire's [red, green, blue]
array to the fields Red, Blue, Green — swapping the green and blue labels,
as `defaultGamut` also does — changes no conversion result. -/
theorem c10_vertex_label_invariance (g g' : Gamut) (hmem : g' ∈ g.arrangements)
    (hd : g.det ≠ 0) (x y : ℚ) :
    g'.reachable x y = g.reachable x y ∧
    dsq x y (g'.closestPoint x y) = dsq x y (g.closestPoint x y) ∧
    Real.sqrt ((dsq x y (g'.closestPoint x y) : ℚ) : ℝ) =
      Real.sqrt ((dsq x y (g.closestPoint x y) : ℚ) : ℝ) := by
  obtain ⟨hrg, hbr, hgb⟩ := det_ne_vertex_ne g hd
  simp only [Gamut.arrangements, List.mem_cons, List.not_mem_nil, or_false]
    at hmem
  rcases hmem with rfl | rfl | rfl | rfl | rfl | rfl
  · exact ⟨rfl, rfl, rfl⟩
  · -- red, green, blue fields hold R, B, G (blue/green labels swapped)
    have hd2 : (Gamut.mk g.red g.green g.blue).det ≠ 0 := by
      have e : (Gamut.mk g.red g.green g.blue).det = -g.det := by
        simp only [Gamut.det]
        ring
      rw [e]
      exact neg_ne_zero.mpr hd
    have hdq : dsq x y ((Gamut.mk g.red g.green g.blue).closestPoint x y) =
        dsq x y (g.closestPoint x y) := by
      rw [closestPoint_dsq_min, closestPoint_dsq_min]
      dsimp only
      rw [dsq_closest_comm g.red g.blue x y (Ne.symm hbr),
        dsq_closest_comm g.green g.red x y (Ne.symm hrg),
        dsq_closest_comm g.blue g.green x y (Ne.symm hgb)]
      exact ((min3_comm_all _ _ _).1).symm
    refine ⟨?_, hdq, by rw [hdq]⟩
    apply bool_eq_of_true_iff
    rw [reachable_iff_inHull _ hd2, reachable_iff_inHull _ hd]
    exact inHull_swap_qr g.red g.blue g.green x y
  · -- fields hold B, R, G
    have hd2 : (Gamut.mk g.blue g.red g.green).det ≠ 0 := by
      have e : (Gamut.mk g.blue g.red g.green).det = -g.det := by
        simp only [Gamut.det]
        ring
      rw [e]
      exact neg_ne_zero.mpr hd
    have hdq : dsq x y ((Gamut.mk g.blue g.red g.green).closestPoint x y) =
        dsq x y (g.closestPoint x y) := by
      rw [closestPoint_dsq_min, closestPoint_dsq_min]
      dsimp only
      rw [dsq_closest_comm g.blue g.green x y (Ne.symm hgb),
        dsq_closest_comm g.red g.blue x y (Ne.symm hbr),
        dsq_closest_comm g.green g.red x y (Ne.symm hrg)]
      exact ((min3_comm_all _ _ _).2.1).symm
    refine ⟨?_, hdq, by rw [hdq]⟩
    apply bool_eq_of_true_iff
    rw [reachable_iff_inHull _ hd2, reachable_iff_inHull _ hd]
    exact (inHull_swap_qr g.blue g.green g.red x y).trans
      ((inHull_swap_pq g.blue g.red g.green x y).trans
        (inHull_swap_qr g.red g.blue g.green x y))
  · -- fields hold B, G, R
    have hd2 : (Gamut.mk g.blue g.green g.red).det ≠ 0 := by
      have e : (Gamut.mk g.blue g.green g.red).det = g.det := by
        simp only [Gamut.det]
        ring
      rw [e]
      exact hd
    have hdq : dsq x y ((Gamut.mk g.blue g.green g.red).closestPoint x y) =
        dsq x y (g.closestPoint x y) := by
      rw [closestPoint_dsq_min, closestPoint_dsq_min]
      dsimp only
      exact ((min3_comm_all _ _ _).2.2.2.1).symm
    refine ⟨?_, hdq, by rw [hdq]⟩
    apply bool_eq_of_true_iff
    rw [reachable_iff_inHull _ hd2, reachable_iff_inHull _ hd]
    exact (inHull_swap_pq g.blue g.red g.green x y).trans
      (inHull_swap_qr g.red g.blue g.green x y)
  · -- fields hold G, R, B
    have hd2 : (Gamut.mk g.green g.red g.blue).det ≠ 0 := by
      have e : (Gamut.mk g.green g.red g.blue).det = g.det := by
        simp only [Gamut.det]
        ring
      rw [e]
      exact hd
    have hdq : dsq x y ((Gamut.mk g.green g.red g.blue).closestPoint x y) =
        dsq x y (g.closestPoint x y) := by
      rw [closestPoint_dsq_min, closestPoint_dsq_min]
      dsimp only
      exact ((min3_comm_all _ _ _).2.2.2.2).symm
    refine ⟨?_, hdq, by rw [hdq]⟩
    apply bool_eq_of_true_iff
    rw [reachable_iff_inHull _ hd2, reachable_iff_inHull _ hd]
    exact (inHull_swap_qr g.green g.blue g.red x y).trans
      (inHull_swap_pq g.green g.red g.blue x y)
  · -- fields hold G, B, R
    have hd2 : (Gamut.mk g.green g.blue g.red).det ≠ 0 := by
      have e : (Gamut.mk g.green g.blue g.red).det = -g.det := by
        simp only [Gamut.det]
        ring
      rw [e]
      exact neg_ne_zero.mpr hd
    have hdq : dsq x y ((Gamut.mk g.green g.blue g.red).closestPoint x y) =
        dsq x y (g.closestPoint x y) := by
      rw [closestPoint_dsq_min, closestPoint_dsq_min]
      dsimp only
      rw [dsq_closest_comm g.green g.red x y (Ne.symm hrg),
        dsq_closest_comm g.blue g.green x y (Ne.symm hgb),
        dsq_closest_comm g.red g.blue x y (Ne.symm hbr)]
      exact ((min3_comm_all _ _ _).2.2.1).symm
    refine ⟨?_, hdq, by rw [hdq]⟩
    apply bool_eq_of_true_iff
    rw [reachable_iff_inHull _ hd2, reachable_iff_inHull _ hd]
    exact inHull_swap_pq g.green g.red g.blue x y

/-- C10 witness: the blue/green label swap of the unit right triangle. -/
theorem c10_vertex_label_invariance_witness :
    Gamut.mk (0, 0) (1, 0) (0, 1) ∈ (Gamut.mk (0, 0) (0, 1) (1, 0)).arrangements ∧
    (Gamut.mk (0, 0) (0, 1) (1, 0)).det ≠ 0 ∧
    (Gamut.mk (0, 0) (1, 0) (0, 1)).reachable (1/3) (1/3) =
      (Gamut.mk (0, 0) (0, 1) (1, 0)).reachable (1/3) (1/3) :=
  ⟨by simp [Gamut.arrangements], by norm_num [Gamut.det],
    (c10_vertex_label_invariance (Gamut.mk (0, 0) (0, 1) (1, 0))
      (Gamut.mk (0, 0) (1, 0) (0, 1)) (by simp [Gamut.arrangements])
      (by norm_num [Gamut.det]) (1/3) (1/3)).1⟩

end Hue
